import Mathlib

/- A shallow embedding of src/xray.ts from adeo/xray-action.

   All JavaScript objects reaching this code are JSON trees (parsed
   test-result metadata and HTTP response bodies), so object state is
   modelled as finite association lists and in-place mutation as functional
   update along an access path.  Property access on `undefined` or `null`
   and property assignment on a primitive raise a TypeError in JavaScript
   (class bodies are strict mode), which is modelled by `Option`, with
   `none` standing for a thrown exception. -/

/-- JavaScript runtime values occurring in the client: JSON trees plus
`undefined` (a missing object member evaluates to `undefined`). -/
inductive JVal where
  | undef
  | null
  | bool (b : Bool)
  | num (n : Int)
  | str (s : String)
  | obj (members : List (String × JVal))

/-- First-occurrence lookup in an association list.  JavaScript objects have
unique keys; lookup and update consistently use the first occurrence, so the
embedding is faithful also on lists with duplicate keys. -/
def lookupKey {α : Type} : List (String × α) → String → Option α
  | [], _ => none
  | (k, v) :: rest, key => if k = key then some v else lookupKey rest key

/-- Replace the binding of `key` (first occurrence), appending when absent:
the JavaScript assignment `o[key] = v` on a plain object. -/
def setKey {α : Type} : List (String × α) → String → α → List (String × α)
  | [], key, v => [(key, v)]
  | (k, w) :: rest, key, v =>
      if k = key then (key, v) :: rest else (k, w) :: setKey rest key v

/-- JavaScript truthiness of the values above (`NaN` cannot arise here). -/
def jsTruthy : JVal → Bool
  | .undef => false
  | .null => false
  | .bool b => b
  | .num n => n != 0
  | .str s => s != ""
  | .obj _ => true

/-- JavaScript property read `base[k]`: throws (`none`) on `undefined` and
`null`, yields `undefined` for a missing member, autoboxes primitives (none
of the keys used by this client hits a built-in member). -/
def getProp : JVal → String → Option JVal
  | .undef, _ => none
  | .null, _ => none
  | .bool _, _ => some .undef
  | .num _, _ => some .undef
  | .str _, _ => some .undef
  | .obj l, k => some ((lookupKey l k).getD .undef)

/-- JavaScript property write `base[k] = v` in strict mode (the `Xray` class
body is strict): succeeds on objects, throws on everything else. -/
def setProp : JVal → String → JVal → Option JVal
  | .obj l, k, v => some (.obj (setKey l k v))
  | _, _, _ => none

/-- The `XrayImportOptions` fields consumed by `src/xray.ts`.  Optional
string-typed action inputs are absent exactly when empty (the code tests
them for truthiness); `testExecutionJson` is the optional execution
descriptor, `none` when the caller supplied none. -/
structure XrayImportOptions where
  testFormat : String
  projectKey : String
  testExecKey : String
  testPlanKey : String
  testEnvironments : String
  revision : String
  fixVersion : String
  testExecutionJson : Option JVal

/-- `Xray.createSearchParams` (src/xray.ts lines 42 to 66): pushes
`projectKey` unconditionally, then each optional field only when truthy,
in the source's fixed order. -/
def createSearchParams (o : XrayImportOptions) : List (String × String) :=
  let elements : List (String × String) := [("projectKey", o.projectKey)]
  let elements :=
    if o.testExecKey ≠ "" then elements ++ [("testExecKey", o.testExecKey)] else elements
  let elements :=
    if o.testPlanKey ≠ "" then elements ++ [("testPlanKey", o.testPlanKey)] else elements
  let elements :=
    if o.testEnvironments ≠ "" then
      elements ++ [("testEnvironments", o.testEnvironments)]
    else elements
  let elements :=
    if o.revision ≠ "" then elements ++ [("revision", o.revision)] else elements
  if o.fixVersion ≠ "" then elements ++ [("fixVersion", o.fixVersion)] else elements

/-- The mutable client state relevant to the import options: the options
record and the derived `searchParams` field. -/
structure XrayState where
  xrayImportOptions : XrayImportOptions
  searchParams : List (String × String)

/-- The `Xray` constructor's option handling: it stores the options and
immediately derives `searchParams` (src/xray.ts line 34). -/
def mkXray (o : XrayImportOptions) : XrayState :=
  { xrayImportOptions := o, searchParams := createSearchParams o }

/-- `Xray.updateTestExecKey` (src/xray.ts lines 37 to 40): overwrite the
option field, then rebuild the search parameters from scratch. -/
def updateTestExecKey (s : XrayState) (testExecKey : String) : XrayState :=
  let o := { s.xrayImportOptions with testExecKey := testExecKey }
  { xrayImportOptions := o, searchParams := createSearchParams o }

/-- Truthiness of the possibly-absent execution descriptor
(`this.xrayImportOptions.testExecutionJson` as a condition). -/
def jsTruthyOpt : Option JVal → Bool
  | none => false
  | some j => jsTruthy j

/-- The branch condition of `Xray.import` (src/xray.ts lines 138 to 141):
a truthy `testExecutionJson` together with a falsy `testExecKey` selects
the multipart path. -/
def multipartChosen (o : XrayImportOptions) : Bool :=
  jsTruthyOpt o.testExecutionJson && (o.testExecKey == "")

/-- Format normalization at the top of `Xray.import` (src/xray.ts lines 133
to 136): the native `xray` format clears the format sub-path. -/
def effectiveFormat (o : XrayImportOptions) : String :=
  if o.testFormat = "xray" then "" else o.testFormat

/-- Raw-path endpoint (src/xray.ts line 195). -/
def rawEndpoint (o : XrayImportOptions) : String :=
  "/import/execution/" ++ effectiveFormat o

/-- Multipart-path endpoint (src/xray.ts line 174). -/
def multipartEndpoint (o : XrayImportOptions) : String :=
  "/import/execution/" ++ effectiveFormat o ++ "/multipart"

/- ----------------------------------------------------------------
   updateTestExecJson (src/xray.ts lines 68 to 105)
   ---------------------------------------------------------------- -/

/-- One statement form of `updateTestExecJson`:
`if (!o[k]) { o[k] = {} }`. -/
def ensureObjProp (j : JVal) (k : String) : Option JVal :=
  match getProp j k with
  | none => none
  | some v => if jsTruthy v then some j else setProp j k (JVal.obj [])

/-- One statement form of `updateTestExecJson`:
`if (!o[k1][k2]) { o[k1][k2] = {} }` (the assignment mutates the object
referenced by `o[k1]`, functionally a path update). -/
def ensureObjProp2 (j : JVal) (k1 k2 : String) : Option JVal :=
  match getProp j k1 with
  | none => none
  | some f =>
    match getProp f k2 with
    | none => none
    | some v =>
      if jsTruthy v then some j
      else
        match setProp f k2 (JVal.obj []) with
        | none => none
        | some f2 => setProp j k1 f2

/-- One statement form of `updateTestExecJson`: `o[k1][k2] = v`. -/
def setProp2 (j : JVal) (k1 k2 : String) (v : JVal) : Option JVal :=
  match getProp j k1 with
  | none => none
  | some f =>
    match setProp f k2 v with
    | none => none
    | some f2 => setProp j k1 f2

/-- One statement form of `updateTestExecJson`: `o[k1][k2][k3] = v`. -/
def setProp3 (j : JVal) (k1 k2 k3 : String) (v : JVal) : Option JVal :=
  match getProp j k1 with
  | none => none
  | some f =>
    match getProp f k2 with
    | none => none
    | some p =>
      match setProp p k3 v with
      | none => none
      | some p2 =>
        match setProp f k2 p2 with
        | none => none
        | some f2 => setProp j k1 f2

/-- `Xray.updateTestExecJson` (src/xray.ts lines 68 to 105), statement by
statement: ensure `fields`, ensure `fields.project`, force
`fields.project.key`, ensure `xrayFields`, then copy each truthy context
field into `xrayFields` in source order. -/
def updateTestExecJson (o : XrayImportOptions) (testExecutionJson : JVal) : Option JVal :=
  (ensureObjProp testExecutionJson "fields").bind fun j =>
  (ensureObjProp2 j "fields" "project").bind fun j =>
  (setProp3 j "fields" "project" "key" (JVal.str o.projectKey)).bind fun j =>
  (ensureObjProp j "xrayFields").bind fun j =>
  (if o.testExecKey ≠ "" then
    setProp2 j "xrayFields" "testExecKey" (JVal.str o.testExecKey)
  else some j).bind fun j =>
  (if o.testPlanKey ≠ "" then
    setProp2 j "xrayFields" "testPlanKey" (JVal.str o.testPlanKey)
  else some j).bind fun j =>
  (if o.testEnvironments ≠ "" then
    setProp2 j "xrayFields" "testEnvironments" (JVal.str o.testEnvironments)
  else some j).bind fun j =>
  (if o.revision ≠ "" then
    setProp2 j "xrayFields" "revision" (JVal.str o.revision)
  else some j).bind fun j =>
  (if o.fixVersion ≠ "" then
    setProp2 j "xrayFields" "fixVersion" (JVal.str o.fixVersion)
  else some j)

/- ----------------------------------------------------------------
   HTTP client state, auth, and the import request (src/xray.ts 107-220)
   ---------------------------------------------------------------- -/

/-- The part of the `got` client state this code manipulates: default
headers installed via `got.extend`. -/
structure GotClient where
  headers : List (String × String)

/-- `got.extend` / per-request header merging: the added headers override
same-named defaults. -/
def mergeHeaders (base extra : List (String × String)) : List (String × String) :=
  extra.foldl (fun acc kv => setKey acc kv.1 kv.2) base

/-- Result of the cloud branch of `Xray.auth` (src/xray.ts lines 113 to
128): the rebuilt client plus the secret registry of the host environment. -/
structure AuthResult where
  client : GotClient
  secrets : List String

/-- Cloud branch of `Xray.auth`: the response body (a bare token string) is
installed as a Bearer header on the client and registered as a secret. -/
def authCloud (c : GotClient) (secrets : List String) (tokenBody : String) : AuthResult :=
  { client := { headers := mergeHeaders c.headers [("Authorization", "Bearer " ++ tokenBody)] }
    secrets := tokenBody :: secrets }

/-- The request issued by `Xray.import`, as handed to `got.post`:
endpoint, optional query parameters, effective headers, and the bodies of
the two shapes (multipart form parts, or the raw byte body). -/
structure ImportRequest where
  endpoint : String
  searchParams : Option (List (String × String))
  headers : List (String × String)
  formInfo : Option JVal
  formResults : Option String
  formTestInfo : Option JVal
  rawBody : Option String

/-- Request construction of `Xray.import` (src/xray.ts lines 131 to 208).
On the multipart path the execution descriptor is first merged in place
(line 143); a merge exception propagates (`none`).  The multipart post
carries only the form (lines 180 to 182); the raw post carries the stored
search parameters, a `text/xml` content type and the raw data (lines 201
to 208). -/
def importRequest (c : GotClient) (s : XrayState) (data : String) : Option ImportRequest :=
  if multipartChosen s.xrayImportOptions then
    match s.xrayImportOptions.testExecutionJson with
    | none => none
    | some d =>
      match updateTestExecJson s.xrayImportOptions d with
      | none => none
      | some d2 =>
        some
          { endpoint := multipartEndpoint s.xrayImportOptions
            searchParams := none
            headers := c.headers
            formInfo := some d2
            formResults := some data
            formTestInfo := some (JVal.obj [("fields", JVal.obj
              [("project", JVal.obj [("key", JVal.str s.xrayImportOptions.projectKey)])])])
            rawBody := none }
  else
    some
      { endpoint := rawEndpoint s.xrayImportOptions
        searchParams := some s.searchParams
        headers := mergeHeaders c.headers [("Content-Type", "text/xml")]
        formInfo := none
        formResults := none
        formTestInfo := none
        rawBody := some data }

/-- Response normalization of `Xray.import` (src/xray.ts lines 184 to 193
and 209 to 218): `try { return importResponse.body.key } catch { warn;
return '' }`.  The returned pair is the produced value together with a flag
recording whether the warning diagnostic was emitted (the catch block runs
only when the property read itself throws, that is when the body is
`undefined` or `null`). -/
def extractImportKey (body : JVal) : JVal × Bool :=
  match getProp body "key" with
  | some v => (v, false)
  | none => (JVal.str "", true)

/- ----------------------------------------------------------------
   Association-list lemmas
   ---------------------------------------------------------------- -/

theorem lookupKey_setKey_self {α : Type} (l : List (String × α)) (k : String) (v : α) :
    lookupKey (setKey l k v) k = some v := by
  induction l with
  | nil => simp [setKey, lookupKey]
  | cons hd tl ih =>
    obtain ⟨k1, v1⟩ := hd
    by_cases h : k1 = k
    · simp [setKey, lookupKey, h]
    · simp [setKey, lookupKey, h, ih]

theorem lookupKey_setKey_other {α : Type} (l : List (String × α)) (k k2 : String) (v : α)
    (hne : k2 ≠ k) : lookupKey (setKey l k v) k2 = lookupKey l k2 := by
  have hne2 : k ≠ k2 := Ne.symm hne
  induction l with
  | nil => simp [setKey, lookupKey, hne2]
  | cons hd tl ih =>
    obtain ⟨k1, v1⟩ := hd
    by_cases h : k1 = k
    · subst h
      simp [setKey, lookupKey, hne2]
    · simp only [setKey, if_neg h]
      by_cases h2 : k1 = k2
      · simp [lookupKey, h2]
      · simp [lookupKey, h2, ih]

theorem setKey_self_of_lookup {α : Type} {l : List (String × α)} {k : String} {v : α}
    (h : lookupKey l k = some v) : setKey l k v = l := by
  induction l with
  | nil => simp [lookupKey] at h
  | cons hd tl ih =>
    obtain ⟨k1, v1⟩ := hd
    by_cases hk : k1 = k
    · subst hk
      have hv : v1 = v := by simpa [lookupKey] using h
      simp [setKey, hv]
    · simp only [lookupKey] at h
      rw [if_neg hk] at h
      simp [setKey, hk, ih h]

/- ----------------------------------------------------------------
   Query parameters (claims C4 and C7)
   ---------------------------------------------------------------- -/

/-- Closed form of `createSearchParams`: `projectKey` heads the list and the
five optional fields follow, in the fixed source order, filtered on
non-emptiness. -/
theorem createSearchParams_eq (o : XrayImportOptions) :
    createSearchParams o =
      ("projectKey", o.projectKey) ::
        List.filter (fun kv => decide (kv.2 ≠ ""))
          [("testExecKey", o.testExecKey), ("testPlanKey", o.testPlanKey),
           ("testEnvironments", o.testEnvironments), ("revision", o.revision),
           ("fixVersion", o.fixVersion)] := by
  unfold createSearchParams
  by_cases h1 : o.testExecKey = "" <;> by_cases h2 : o.testPlanKey = "" <;>
    by_cases h3 : o.testEnvironments = "" <;> by_cases h4 : o.revision = "" <;>
    by_cases h5 : o.fixVersion = "" <;>
    simp [h1, h2, h3, h4, h5, List.filter]

/-- Claim C4, counterexample: with an empty `projectKey` the produced
parameter list contains the entry `("projectKey", "")`, whose source value
is empty, so the universally quantified claim fails as stated. -/
theorem createSearchParams_empty_projectKey :
    ("projectKey", "") ∈ createSearchParams
      { testFormat := "junit", projectKey := "", testExecKey := "", testPlanKey := "",
        testEnvironments := "", revision := "", fixVersion := "", testExecutionJson := none } := by
  decide

/-- Claim C4 (amended): `projectKey` is always the first entry (even when
its value is empty); the five optional fields are appended after it in the
fixed order testExecKey, testPlanKey, testEnvironments, revision,
fixVersion, each only when non-empty, so no optional entry ever has an
empty source value; and when `projectKey` is non-empty no entry at all has
an empty value. -/
theorem createSearchParams_spec (o : XrayImportOptions) :
    (createSearchParams o).head? = some ("projectKey", o.projectKey) ∧
    (createSearchParams o).tail =
      List.filter (fun kv => decide (kv.2 ≠ ""))
        [("testExecKey", o.testExecKey), ("testPlanKey", o.testPlanKey),
         ("testEnvironments", o.testEnvironments), ("revision", o.revision),
         ("fixVersion", o.fixVersion)] ∧
    (∀ kv ∈ (createSearchParams o).tail, kv.2 ≠ "") ∧
    (o.projectKey ≠ "" → ∀ kv ∈ createSearchParams o, kv.2 ≠ "") := by
  have he := createSearchParams_eq o
  refine ⟨by rw [he]; rfl, by rw [he]; rfl, ?_, ?_⟩
  · intro kv hkv
    rw [he] at hkv
    simp only [List.tail_cons, List.mem_filter, decide_eq_true_eq] at hkv
    exact hkv.2
  · intro hpk kv hkv
    rw [he] at hkv
    rcases List.mem_cons.mp hkv with h | h
    · rw [h]; exact hpk
    · exact of_decide_eq_true (List.mem_filter.mp h).2

theorem createSearchParams_spec_witness :
    (createSearchParams
      { testFormat := "junit", projectKey := "PRJ", testExecKey := "", testPlanKey := "TP-1",
        testEnvironments := "", revision := "", fixVersion := "",
        testExecutionJson := none }).head? = some ("projectKey", "PRJ") ∧
    ("testEnvironments", "") ∉ createSearchParams
      { testFormat := "junit", projectKey := "PRJ", testExecKey := "", testPlanKey := "TP-1",
        testEnvironments := "", revision := "", fixVersion := "",
        testExecutionJson := none } := by
  have h := createSearchParams_spec
    { testFormat := "junit", projectKey := "PRJ", testExecKey := "", testPlanKey := "TP-1",
      testEnvironments := "", revision := "", fixVersion := "", testExecutionJson := none }
  refine ⟨h.1, fun hmem => ?_⟩
  exact (h.2.2.2 (by decide) _ hmem) rfl

/-- Any `testExecKey` entry of the produced parameter list carries exactly
the `testExecKey` of the options it was built from. -/
theorem createSearchParams_testExecKey_val (o : XrayImportOptions) (v : String)
    (hv : ("testExecKey", v) ∈ createSearchParams o) : v = o.testExecKey := by
  rw [createSearchParams_eq] at hv
  rcases List.mem_cons.mp hv with h | h
  · have h1 : ("testExecKey" : String) = "projectKey" := congrArg Prod.fst h
    exact absurd h1 (by decide)
  · have h2 := (List.mem_filter.mp h).1
    simp only [List.mem_cons, List.not_mem_nil, or_false, Prod.mk.injEq] at h2
    rcases h2 with ⟨h1, h2⟩ | ⟨h1, h2⟩ | ⟨h1, h2⟩ | ⟨h1, h2⟩ | ⟨h1, h2⟩
    · exact h2
    all_goals exact absurd h1 (by decide)

/-- A non-empty `testExecKey` always shows up in the produced list. -/
theorem createSearchParams_mem_testExecKey (o : XrayImportOptions)
    (h : o.testExecKey ≠ "") :
    ("testExecKey", o.testExecKey) ∈ createSearchParams o := by
  rw [createSearchParams_eq]
  exact List.mem_cons_of_mem _ (List.mem_filter.mpr ⟨by simp, by simpa using h⟩)

/-- Claim C7: updating `testExecKey` rebuilds the query parameters in full
from the updated options: the stored list equals a fresh
`createSearchParams` of the new options, any `testExecKey` entry carries
exactly the new value (no stale value can remain), and a non-empty new
value does appear. -/
theorem updateTestExecKey_regenerates (s : XrayState) (k : String) :
    (updateTestExecKey s k).searchParams =
      createSearchParams { s.xrayImportOptions with testExecKey := k } ∧
    (∀ v, ("testExecKey", v) ∈ (updateTestExecKey s k).searchParams → v = k) ∧
    (k ≠ "" → ("testExecKey", k) ∈ (updateTestExecKey s k).searchParams) := by
  refine ⟨rfl, ?_, ?_⟩
  · intro v hv
    exact createSearchParams_testExecKey_val { s.xrayImportOptions with testExecKey := k } v hv
  · intro hk
    exact createSearchParams_mem_testExecKey { s.xrayImportOptions with testExecKey := k } hk

theorem updateTestExecKey_regenerates_witness :
    ("testExecKey", "NEW-2") ∈ (updateTestExecKey
      { xrayImportOptions :=
          { testFormat := "junit", projectKey := "PRJ", testExecKey := "OLD-1",
            testPlanKey := "", testEnvironments := "", revision := "", fixVersion := "",
            testExecutionJson := none }
        searchParams := [("projectKey", "PRJ"), ("testExecKey", "OLD-1")] }
      "NEW-2").searchParams ∧
    ("testExecKey", "OLD-1") ∉ (updateTestExecKey
      { xrayImportOptions :=
          { testFormat := "junit", projectKey := "PRJ", testExecKey := "OLD-1",
            testPlanKey := "", testEnvironments := "", revision := "", fixVersion := "",
            testExecutionJson := none }
        searchParams := [("projectKey", "PRJ"), ("testExecKey", "OLD-1")] }
      "NEW-2").searchParams := by
  have h := updateTestExecKey_regenerates
    { xrayImportOptions :=
        { testFormat := "junit", projectKey := "PRJ", testExecKey := "OLD-1",
          testPlanKey := "", testEnvironments := "", revision := "", fixVersion := "",
          testExecutionJson := none }
      searchParams := [("projectKey", "PRJ"), ("testExecKey", "OLD-1")] } "NEW-2"
  refine ⟨h.2.2 (by decide), fun hmem => ?_⟩
  exact absurd (h.2.1 "OLD-1" hmem) (by decide)

/- ----------------------------------------------------------------
   Path selection, endpoints, response normalization, auth (C1, C2, C3,
   C8, C10)
   ---------------------------------------------------------------- -/

/-- Claim C2: for options whose execution descriptor, when present, is a
JSON object (the shape the surrounding action supplies), the multipart path
is chosen iff the descriptor is present and `testExecKey` is absent. -/
theorem multipartChosen_iff (o : XrayImportOptions)
    (hdesc : ∀ jd, o.testExecutionJson = some jd → ∃ l, jd = JVal.obj l) :
    multipartChosen o = true ↔ o.testExecutionJson ≠ none ∧ o.testExecKey = "" := by
  cases h : o.testExecutionJson with
  | none => simp [multipartChosen, jsTruthyOpt, h]
  | some jd =>
    obtain ⟨l, rfl⟩ := hdesc jd h
    simp [multipartChosen, jsTruthyOpt, jsTruthy, h]

theorem multipartChosen_iff_witness :
    multipartChosen
      { testFormat := "junit", projectKey := "PRJ", testExecKey := "", testPlanKey := "",
        testEnvironments := "", revision := "", fixVersion := "",
        testExecutionJson := some (JVal.obj []) } = true := by
  have h := multipartChosen_iff
    { testFormat := "junit", projectKey := "PRJ", testExecKey := "", testPlanKey := "",
      testEnvironments := "", revision := "", fixVersion := "",
      testExecutionJson := some (JVal.obj []) }
    (fun jd hj => ⟨[], (Option.some.inj hj).symm⟩)
  exact h.mpr ⟨by simp, rfl⟩

/-- Claim C3: the native `xray` format yields endpoints with no format
sub-path appended, while every other format code is appended to
`/import/execution/` as-is for the raw path and suffixed with `/multipart`
for the multipart path. -/
theorem importEndpoints_spec (o : XrayImportOptions) :
    (o.testFormat = "xray" →
      rawEndpoint o = "/import/execution/" ∧
      multipartEndpoint o = "/import/execution//multipart") ∧
    (o.testFormat ≠ "xray" →
      rawEndpoint o = "/import/execution/" ++ o.testFormat ∧
      multipartEndpoint o = "/import/execution/" ++ o.testFormat ++ "/multipart") := by
  constructor
  · intro h
    unfold rawEndpoint multipartEndpoint effectiveFormat
    rw [h]
    decide
  · intro h
    unfold rawEndpoint multipartEndpoint effectiveFormat
    rw [if_neg h]
    exact ⟨rfl, rfl⟩

theorem importEndpoints_spec_witness :
    rawEndpoint
      { testFormat := "junit", projectKey := "PRJ", testExecKey := "", testPlanKey := "",
        testEnvironments := "", revision := "", fixVersion := "",
        testExecutionJson := none } = "/import/execution/junit" ∧
    multipartEndpoint
      { testFormat := "junit", projectKey := "PRJ", testExecKey := "", testPlanKey := "",
        testEnvironments := "", revision := "", fixVersion := "",
        testExecutionJson := none } = "/import/execution/junit/multipart" ∧
    rawEndpoint
      { testFormat := "xray", projectKey := "PRJ", testExecKey := "", testPlanKey := "",
        testEnvironments := "", revision := "", fixVersion := "",
        testExecutionJson := none } = "/import/execution/" := by
  have h1 := importEndpoints_spec
    { testFormat := "junit", projectKey := "PRJ", testExecKey := "", testPlanKey := "",
      testEnvironments := "", revision := "", fixVersion := "", testExecutionJson := none }
  have h2 := importEndpoints_spec
    { testFormat := "xray", projectKey := "PRJ", testExecKey := "", testPlanKey := "",
      testEnvironments := "", revision := "", fixVersion := "", testExecutionJson := none }
  exact ⟨(h1.2 (by decide)).1, (h1.2 (by decide)).2, (h2.1 rfl).1⟩

/-- Claim C1, code behavior: for the response body `obj [("id", num 7)]` —
an object lacking a `key` member — the extraction returns JavaScript
`undefined` and emits NO warning (property access on an object never
throws, so the catch block is unreachable for such bodies), contradicting
the specified warning-plus-empty-string behavior; a string-valued `key` is
returned as specified, and a `null` body does reach the
warning-and-empty-string path. -/
theorem extractImportKey_behavior :
    extractImportKey (JVal.obj [("id", JVal.num 7)]) = (JVal.undef, false) ∧
    extractImportKey (JVal.obj [("key", JVal.str "EXEC-123")]) = (JVal.str "EXEC-123", false) ∧
    extractImportKey JVal.null = (JVal.str "", true) :=
  ⟨rfl, rfl, rfl⟩

/-- Claim C10: query parameters are attached only to raw-body import
requests.  Any issued multipart request carries no search parameters (its
form holds the merged descriptor instead), and any issued raw request
carries exactly the stored search parameters. -/
theorem importRequest_searchParams (c : GotClient) (s : XrayState) (data : String)
    (r : ImportRequest) (h : importRequest c s data = some r) :
    (multipartChosen s.xrayImportOptions = true →
      r.searchParams = none ∧ r.formInfo ≠ none) ∧
    (multipartChosen s.xrayImportOptions = false →
      r.searchParams = some s.searchParams) := by
  unfold importRequest at h
  split at h
  case isTrue hm =>
    refine ⟨fun _ => ?_, fun hf => by rw [hm] at hf; exact Bool.noConfusion hf⟩
    split at h
    · exact Option.noConfusion h
    · next d hd =>
      split at h
      · exact Option.noConfusion h
      · next d2 hu =>
        obtain rfl := Option.some.inj h
        exact ⟨rfl, by simp⟩
  case isFalse hm =>
    obtain rfl := Option.some.inj h
    exact ⟨fun ht => absurd ht hm, fun _ => rfl⟩

theorem importRequest_searchParams_witness :
    (let sM : XrayState :=
      { xrayImportOptions :=
          { testFormat := "junit", projectKey := "PRJ", testExecKey := "", testPlanKey := "",
            testEnvironments := "", revision := "", fixVersion := "",
            testExecutionJson := some (JVal.obj []) }
        searchParams := [("projectKey", "PRJ")] }
     (importRequest { headers := [] } sM "data").map ImportRequest.searchParams = some none) ∧
    (let sR : XrayState :=
      { xrayImportOptions :=
          { testFormat := "junit", projectKey := "PRJ", testExecKey := "EXEC-1", testPlanKey := "",
            testEnvironments := "", revision := "", fixVersion := "",
            testExecutionJson := none }
        searchParams := [("projectKey", "PRJ"), ("testExecKey", "EXEC-1")] }
     (importRequest { headers := [] } sR "data").map ImportRequest.searchParams =
        some (some [("projectKey", "PRJ"), ("testExecKey", "EXEC-1")])) := by
  constructor
  · intro sM
    have h := importRequest_searchParams { headers := [] } sM "data"
      { endpoint := "/import/execution/junit/multipart"
        searchParams := none
        headers := []
        formInfo := some (JVal.obj
          [("fields", JVal.obj [("project", JVal.obj [("key", JVal.str "PRJ")])]),
           ("xrayFields", JVal.obj [])])
        formResults := some "data"
        formTestInfo := some (JVal.obj
          [("fields", JVal.obj [("project", JVal.obj [("key", JVal.str "PRJ")])])])
        rawBody := none } rfl
    have h2 := h.1 rfl
    rw [show importRequest { headers := [] } sM "data" =
      some { endpoint := "/import/execution/junit/multipart"
             searchParams := none
             headers := []
             formInfo := some (JVal.obj
               [("fields", JVal.obj [("project", JVal.obj [("key", JVal.str "PRJ")])]),
                ("xrayFields", JVal.obj [])])
             formResults := some "data"
             formTestInfo := some (JVal.obj
               [("fields", JVal.obj [("project", JVal.obj [("key", JVal.str "PRJ")])])])
             rawBody := none } from rfl,
      Option.map_some', h2.1]
  · intro sR
    have h := importRequest_searchParams { headers := [] } sR "data"
      { endpoint := "/import/execution/junit"
        searchParams := some [("projectKey", "PRJ"), ("testExecKey", "EXEC-1")]
        headers := [("Content-Type", "text/xml")]
        formInfo := none
        formResults := none
        formTestInfo := none
        rawBody := some "data" } rfl
    have h2 := h.2 rfl
    rw [show importRequest { headers := [] } sR "data" =
      some { endpoint := "/import/execution/junit"
             searchParams := some [("projectKey", "PRJ"), ("testExecKey", "EXEC-1")]
             headers := [("Content-Type", "text/xml")]
             formInfo := none
             formResults := none
             formTestInfo := none
             rawBody := some "data" } from rfl,
      Option.map_some', h2]

/-- Claim C8: after the cloud auth exchange captures token `t` from the
response body, every import request the client subsequently issues carries
the header `Authorization: Bearer t`, and the literal token string is
registered as a secret with the host environment. -/
theorem authCloud_bearer (c : GotClient) (secrets : List String) (t : String)
    (s : XrayState) (data : String) :
    (∀ r, importRequest (authCloud c secrets t).client s data = some r →
      lookupKey r.headers "Authorization" = some ("Bearer " ++ t)) ∧
    t ∈ (authCloud c secrets t).secrets := by
  constructor
  · intro r h
    have hdef : (authCloud c secrets t).client.headers =
        setKey c.headers "Authorization" ("Bearer " ++ t) := rfl
    unfold importRequest at h
    split at h
    case isTrue hm =>
      split at h
      · exact Option.noConfusion h
      · next d hd =>
        split at h
        · exact Option.noConfusion h
        · next d2 hu =>
          obtain rfl := Option.some.inj h
          show lookupKey (authCloud c secrets t).client.headers "Authorization" = _
          rw [hdef, lookupKey_setKey_self]
    case isFalse hm =>
      obtain rfl := Option.some.inj h
      show lookupKey (mergeHeaders (authCloud c secrets t).client.headers
        [("Content-Type", "text/xml")]) "Authorization" = _
      have hmerge : mergeHeaders (authCloud c secrets t).client.headers
          [("Content-Type", "text/xml")] =
          setKey ((authCloud c secrets t).client.headers) "Content-Type" "text/xml" := rfl
      rw [hmerge, lookupKey_setKey_other _ _ _ _ (by decide), hdef, lookupKey_setKey_self]
  · exact List.mem_cons_self t secrets

theorem authCloud_bearer_witness :
    lookupKey
      [("Authorization", "Bearer abc123"), ("Content-Type", "text/xml")]
      "Authorization" = some "Bearer abc123" ∧
    "abc123" ∈ (authCloud { headers := [] } [] "abc123").secrets := by
  have h := authCloud_bearer { headers := [] } [] "abc123"
    { xrayImportOptions :=
        { testFormat := "junit", projectKey := "PRJ", testExecKey := "EXEC-1", testPlanKey := "",
          testEnvironments := "", revision := "", fixVersion := "",
          testExecutionJson := none }
      searchParams := [("projectKey", "PRJ"), ("testExecKey", "EXEC-1")] } "data"
  exact
    ⟨h.1
      { endpoint := "/import/execution/junit"
        searchParams := some [("projectKey", "PRJ"), ("testExecKey", "EXEC-1")]
        headers := [("Authorization", "Bearer abc123"), ("Content-Type", "text/xml")]
        formInfo := none
        formResults := none
        formTestInfo := none
        rawBody := some "data" } rfl,
     h.2⟩

/- ----------------------------------------------------------------
   Characterization of updateTestExecJson (claims C5, C6, C9)
   ---------------------------------------------------------------- -/

/-- Evaluation of the ensure-statement when the member is already truthy:
nothing happens. -/
theorem ensureObjProp_skip {l : List (String × JVal)} {k : String} {w : JVal}
    (h1 : lookupKey l k = some w) (h2 : jsTruthy w = true) :
    ensureObjProp (JVal.obj l) k = some (JVal.obj l) := by
  simp only [ensureObjProp, getProp]
  rw [h1]
  simp [h2]

/-- Evaluation of the nested ensure-statement when the inner member is
already truthy. -/
theorem ensureObjProp2_skip {l lf : List (String × JVal)} {k1 k2 : String} {w : JVal}
    (h1 : lookupKey l k1 = some (JVal.obj lf)) (h2 : lookupKey lf k2 = some w)
    (h3 : jsTruthy w = true) :
    ensureObjProp2 (JVal.obj l) k1 k2 = some (JVal.obj l) := by
  simp only [ensureObjProp2, getProp]
  rw [h1]
  simp only [Option.getD_some]
  rw [h2]
  simp [h3]

/-- Evaluation of the two-level assignment when the intermediate member is
an object. -/
theorem setProp2_eval {l lf : List (String × JVal)} {k1 k2 : String} {v : JVal}
    (h1 : lookupKey l k1 = some (JVal.obj lf)) :
    setProp2 (JVal.obj l) k1 k2 v =
      some (JVal.obj (setKey l k1 (JVal.obj (setKey lf k2 v)))) := by
  simp only [setProp2, getProp]
  rw [h1]
  simp [setProp]

/-- Evaluation of the three-level assignment when both intermediate members
are objects. -/
theorem setProp3_eval {l lf lp : List (String × JVal)} {k1 k2 k3 : String} {v : JVal}
    (h1 : lookupKey l k1 = some (JVal.obj lf)) (h2 : lookupKey lf k2 = some (JVal.obj lp)) :
    setProp3 (JVal.obj l) k1 k2 k3 v =
      some (JVal.obj (setKey l k1 (JVal.obj (setKey lf k2 (JVal.obj (setKey lp k3 v)))))) := by
  simp only [setProp3, getProp]
  rw [h1]
  simp only [Option.getD_some]
  rw [h2]
  simp [setProp]

/-- Success characterization of the ensure-statement on an object: the
member is truthy afterwards, all other keys are untouched, and an already
truthy member means nothing changed at all. -/
theorem ensureObjProp_facts {l : List (String × JVal)} {k : String} {j' : JVal}
    (h : ensureObjProp (JVal.obj l) k = some j') :
    ∃ l', j' = JVal.obj l' ∧
      (∃ v, lookupKey l' k = some v ∧ jsTruthy v = true) ∧
      (∀ k2, k2 ≠ k → lookupKey l' k2 = lookupKey l k2) ∧
      (∀ v, lookupKey l k = some v → jsTruthy v = true → l' = l) := by
  simp only [ensureObjProp, getProp] at h
  by_cases ht : jsTruthy ((lookupKey l k).getD JVal.undef) = true
  · rw [if_pos ht] at h
    obtain rfl := Option.some.inj h
    refine ⟨l, rfl, ?_, fun k2 _ => rfl, fun v _ _ => rfl⟩
    cases e : lookupKey l k with
    | none => rw [e] at ht; exact absurd ht (by simp [jsTruthy])
    | some w => rw [e] at ht; exact ⟨w, rfl, by simpa using ht⟩
  · rw [if_neg ht] at h
    simp only [setProp] at h
    obtain rfl := Option.some.inj h
    refine ⟨setKey l k (JVal.obj []), rfl,
      ⟨JVal.obj [], lookupKey_setKey_self l k _, rfl⟩,
      fun k2 hk2 => lookupKey_setKey_other l k k2 _ hk2,
      fun v hv htv => ?_⟩
    exact absurd (show jsTruthy ((lookupKey l k).getD JVal.undef) = true by
      rw [hv]; simpa using htv) ht

/-- Success characterization of the nested ensure-statement: the outer
member must already be an object; afterwards the inner member is truthy,
only the inner key (inside the outer one) may have changed, and an already
truthy inner member means nothing changed. -/
theorem ensureObjProp2_facts {l : List (String × JVal)} {k1 k2 : String} {j' : JVal}
    (h : ensureObjProp2 (JVal.obj l) k1 k2 = some j') :
    ∃ lf l' lf', lookupKey l k1 = some (JVal.obj lf) ∧ j' = JVal.obj l' ∧
      lookupKey l' k1 = some (JVal.obj lf') ∧
      (∃ v, lookupKey lf' k2 = some v ∧ jsTruthy v = true) ∧
      (∀ k, k ≠ k1 → lookupKey l' k = lookupKey l k) ∧
      (∀ k, k ≠ k2 → lookupKey lf' k = lookupKey lf k) ∧
      (∀ v, lookupKey lf k2 = some v → jsTruthy v = true → l' = l ∧ lf' = lf) := by
  cases e1 : lookupKey l k1 with
  | none => simp [ensureObjProp2, getProp, e1, setProp] at h
  | some f =>
    cases f with
    | undef => simp [ensureObjProp2, getProp, e1, setProp] at h
    | null => simp [ensureObjProp2, getProp, e1, setProp] at h
    | bool b => simp [ensureObjProp2, getProp, e1, setProp, jsTruthy] at h
    | num n => simp [ensureObjProp2, getProp, e1, setProp, jsTruthy] at h
    | str s2 => simp [ensureObjProp2, getProp, e1, setProp, jsTruthy] at h
    | obj lf =>
      by_cases ht : jsTruthy ((lookupKey lf k2).getD JVal.undef) = true
      · have he : ensureObjProp2 (JVal.obj l) k1 k2 = some (JVal.obj l) := by
          cases e2 : lookupKey lf k2 with
          | none => rw [e2] at ht; exact absurd ht (by simp [jsTruthy])
          | some w => exact ensureObjProp2_skip e1 e2 (by rw [e2] at ht; simpa using ht)
        rw [he] at h
        obtain rfl := Option.some.inj h
        refine ⟨lf, l, lf, rfl, rfl, e1, ?_, fun k _ => rfl, fun k _ => rfl,
          fun v _ _ => ⟨rfl, rfl⟩⟩
        cases e2 : lookupKey lf k2 with
        | none => rw [e2] at ht; exact absurd ht (by simp [jsTruthy])
        | some w => rw [e2] at ht; exact ⟨w, rfl, by simpa using ht⟩
      · have he : ensureObjProp2 (JVal.obj l) k1 k2 =
            some (JVal.obj (setKey l k1 (JVal.obj (setKey lf k2 (JVal.obj []))))) := by
          simp only [ensureObjProp2, getProp, e1, Option.getD_some]
          rw [if_neg ht]
          simp [setProp]
        rw [he] at h
        obtain rfl := Option.some.inj h
        refine ⟨lf, _, setKey lf k2 (JVal.obj []), rfl, rfl,
          lookupKey_setKey_self l k1 _,
          ⟨JVal.obj [], lookupKey_setKey_self lf k2 _, rfl⟩,
          fun k hk => lookupKey_setKey_other l k1 k _ hk,
          fun k hk => lookupKey_setKey_other lf k2 k _ hk,
          fun v hv htv => ?_⟩
        exact absurd (show jsTruthy ((lookupKey lf k2).getD JVal.undef) = true by
          rw [hv]; simpa using htv) ht

/-- Success characterization of the two-level assignment. -/
theorem setProp2_facts {l : List (String × JVal)} {k1 k2 : String} {v : JVal} {j' : JVal}
    (h : setProp2 (JVal.obj l) k1 k2 v = some j') :
    ∃ lf, lookupKey l k1 = some (JVal.obj lf) ∧
      j' = JVal.obj (setKey l k1 (JVal.obj (setKey lf k2 v))) := by
  cases e1 : lookupKey l k1 with
  | none => simp [setProp2, getProp, e1, setProp] at h
  | some f =>
    cases f with
    | undef => simp [setProp2, getProp, e1, setProp] at h
    | null => simp [setProp2, getProp, e1, setProp] at h
    | bool b => simp [setProp2, getProp, e1, setProp] at h
    | num n => simp [setProp2, getProp, e1, setProp] at h
    | str s2 => simp [setProp2, getProp, e1, setProp] at h
    | obj lf =>
      rw [setProp2_eval e1] at h
      exact ⟨lf, rfl, (Option.some.inj h).symm⟩

/-- Success characterization of the three-level assignment. -/
theorem setProp3_facts {l : List (String × JVal)} {k1 k2 k3 : String} {v : JVal} {j' : JVal}
    (h : setProp3 (JVal.obj l) k1 k2 k3 v = some j') :
    ∃ lf lp, lookupKey l k1 = some (JVal.obj lf) ∧ lookupKey lf k2 = some (JVal.obj lp) ∧
      j' = JVal.obj (setKey l k1 (JVal.obj (setKey lf k2 (JVal.obj (setKey lp k3 v))))) := by
  cases e1 : lookupKey l k1 with
  | none => simp [setProp3, getProp, e1, setProp] at h
  | some f =>
    cases f with
    | undef => simp [setProp3, getProp, e1, setProp] at h
    | null => simp [setProp3, getProp, e1, setProp] at h
    | bool b => simp [setProp3, getProp, e1, setProp] at h
    | num n => simp [setProp3, getProp, e1, setProp] at h
    | str s2 => simp [setProp3, getProp, e1, setProp] at h
    | obj lf =>
      cases e2 : lookupKey lf k2 with
      | none => simp [setProp3, getProp, e1, e2, setProp] at h
      | some p =>
        cases p with
        | undef => simp [setProp3, getProp, e1, e2, setProp] at h
        | null => simp [setProp3, getProp, e1, e2, setProp] at h
        | bool b => simp [setProp3, getProp, e1, e2, setProp] at h
        | num n => simp [setProp3, getProp, e1, e2, setProp] at h
        | str s2 => simp [setProp3, getProp, e1, e2, setProp] at h
        | obj lp =>
          rw [setProp3_eval e1 e2] at h
          exact ⟨lf, lp, rfl, e2, (Option.some.inj h).symm⟩

/-- The two possible effects of one conditional `xrayFields` copy step: a
skip (empty source field), or an update of the `fname` member of the
`xrayFields` object. -/
def CondStep (fname s : String) (l l' : List (String × JVal)) : Prop :=
  (s = "" ∧ l' = l) ∨
  (s ≠ "" ∧ ∃ lx, lookupKey l "xrayFields" = some (JVal.obj lx) ∧
     l' = setKey l "xrayFields" (JVal.obj (setKey lx fname (JVal.str s))))

/-- Success characterization of one conditional `xrayFields` copy step. -/
theorem condSet_facts {l : List (String × JVal)} {fname s : String} {j' : JVal}
    (h : (if s ≠ "" then setProp2 (JVal.obj l) "xrayFields" fname (JVal.str s)
          else some (JVal.obj l)) = some j') :
    ∃ l', j' = JVal.obj l' ∧ CondStep fname s l l' := by
  by_cases hs : s = ""
  · rw [if_neg (fun hcon => hcon hs)] at h
    exact ⟨l, (Option.some.inj h).symm, Or.inl ⟨hs, rfl⟩⟩
  · rw [if_pos hs] at h
    obtain ⟨lx, hlx, rfl⟩ := setProp2_facts h
    exact ⟨_, rfl, Or.inr ⟨hs, lx, hlx, rfl⟩⟩

/- Transport of facts across one conditional copy step. -/

theorem condStep_top {fname s : String} {l l' : List (String × JVal)}
    (hstep : CondStep fname s l l') :
    ∀ k, k ≠ "xrayFields" → lookupKey l' k = lookupKey l k := by
  intro k hk
  rcases hstep with ⟨_, rfl⟩ | ⟨_, lx, hlx, rfl⟩
  · rfl
  · exact lookupKey_setKey_other l "xrayFields" k _ hk

theorem condStep_truthy {fname s : String} {l l' : List (String × JVal)}
    (hstep : CondStep fname s l l')
    (ht : ∃ vx, lookupKey l "xrayFields" = some vx ∧ jsTruthy vx = true) :
    ∃ vx, lookupKey l' "xrayFields" = some vx ∧ jsTruthy vx = true := by
  rcases hstep with ⟨_, rfl⟩ | ⟨_, lx, hlx, rfl⟩
  · exact ht
  · exact ⟨_, lookupKey_setKey_self l "xrayFields" _, rfl⟩

theorem condStep_own {fname s : String} {l l' : List (String × JVal)}
    (hstep : CondStep fname s l l') :
    s = "" ∨ ∃ lx, lookupKey l' "xrayFields" = some (JVal.obj lx) ∧
      lookupKey lx fname = some (JVal.str s) := by
  rcases hstep with ⟨hs, rfl⟩ | ⟨_, lx, hlx, rfl⟩
  · exact Or.inl hs
  · exact Or.inr ⟨_, lookupKey_setKey_self l "xrayFields" _,
      lookupKey_setKey_self lx fname _⟩

theorem condStep_cond {fname s g v : String} {l l' : List (String × JVal)}
    (hstep : CondStep fname s l l') (hne : g ≠ fname)
    (hc : ∃ lx, lookupKey l "xrayFields" = some (JVal.obj lx) ∧
        lookupKey lx g = some (JVal.str v)) :
    ∃ lx, lookupKey l' "xrayFields" = some (JVal.obj lx) ∧
      lookupKey lx g = some (JVal.str v) := by
  rcases hstep with ⟨_, rfl⟩ | ⟨_, lx, hlx, rfl⟩
  · exact hc
  · obtain ⟨lx0, hlx0, hg⟩ := hc
    have heq : lx0 = lx := JVal.obj.inj (Option.some.inj (hlx0.symm.trans hlx))
    subst heq
    refine ⟨_, lookupKey_setKey_self l "xrayFields" _, ?_⟩
    rw [lookupKey_setKey_other lx0 fname g _ hne]
    exact hg

theorem condStep_frame (C : String → Prop) {fname s : String}
    {l l' lx0 : List (String × JVal)}
    (hstep : CondStep fname s l l')
    (hG : ∃ lx, lookupKey l "xrayFields" = some (JVal.obj lx) ∧
        ∀ k, C k → lookupKey lx k = lookupKey lx0 k) :
    ∃ lx, lookupKey l' "xrayFields" = some (JVal.obj lx) ∧
      ∀ k, (C k ∧ (k = fname → s = "")) → lookupKey lx k = lookupKey lx0 k := by
  obtain ⟨lx, hlx, hpres⟩ := hG
  rcases hstep with ⟨hs, rfl⟩ | ⟨hs, lx1, hlx1, rfl⟩
  · exact ⟨lx, hlx, fun k hk => hpres k hk.1⟩
  · have heq : lx1 = lx := JVal.obj.inj (Option.some.inj (hlx1.symm.trans hlx))
    subst heq
    refine ⟨_, lookupKey_setKey_self l "xrayFields" _, ?_⟩
    intro k hk
    have hkne : k ≠ fname := fun hkk => hs (hk.2 hkk)
    rw [lookupKey_setKey_other lx1 fname k _ hkne]
    exact hpres k hk.1

/-- The state in which a successful merge leaves a descriptor:
`fields.project.key` holds the context's project key, `xrayFields` is
truthy, and every context field that is present sits in `xrayFields`. -/
def MergedShapeL (o : XrayImportOptions) (l : List (String × JVal)) : Prop :=
  (∃ lf lp, lookupKey l "fields" = some (JVal.obj lf) ∧
    lookupKey lf "project" = some (JVal.obj lp) ∧
    lookupKey lp "key" = some (JVal.str o.projectKey)) ∧
  (∃ vx, lookupKey l "xrayFields" = some vx ∧ jsTruthy vx = true) ∧
  (o.testExecKey = "" ∨ ∃ lx, lookupKey l "xrayFields" = some (JVal.obj lx) ∧
    lookupKey lx "testExecKey" = some (JVal.str o.testExecKey)) ∧
  (o.testPlanKey = "" ∨ ∃ lx, lookupKey l "xrayFields" = some (JVal.obj lx) ∧
    lookupKey lx "testPlanKey" = some (JVal.str o.testPlanKey)) ∧
  (o.testEnvironments = "" ∨ ∃ lx, lookupKey l "xrayFields" = some (JVal.obj lx) ∧
    lookupKey lx "testEnvironments" = some (JVal.str o.testEnvironments)) ∧
  (o.revision = "" ∨ ∃ lx, lookupKey l "xrayFields" = some (JVal.obj lx) ∧
    lookupKey lx "revision" = some (JVal.str o.revision)) ∧
  (o.fixVersion = "" ∨ ∃ lx, lookupKey l "xrayFields" = some (JVal.obj lx) ∧
    lookupKey lx "fixVersion" = some (JVal.str o.fixVersion))

/-- One conditional copy step is a no-op on a descriptor that already holds
the copied value. -/
theorem condSet_eval {l : List (String × JVal)} (fname : String) {s : String}
    (hcond : s = "" ∨ ∃ lx, lookupKey l "xrayFields" = some (JVal.obj lx) ∧
        lookupKey lx fname = some (JVal.str s)) :
    (if s ≠ "" then setProp2 (JVal.obj l) "xrayFields" fname (JVal.str s)
     else some (JVal.obj l)) = some (JVal.obj l) := by
  by_cases hs : s = ""
  · rw [if_neg (fun hcon => hcon hs)]
  · rw [if_pos hs]
    obtain ⟨lx, hlx, hself⟩ := hcond.resolve_left hs
    rw [setProp2_eval hlx, setKey_self_of_lookup hself, setKey_self_of_lookup hlx]

/-- Running the merge on a descriptor that is already in merged shape
changes nothing and succeeds. -/
theorem updateTestExecJson_of_shape {o : XrayImportOptions} {l : List (String × JVal)}
    (h : MergedShapeL o l) : updateTestExecJson o (JVal.obj l) = some (JVal.obj l) := by
  obtain ⟨⟨lf, lp, hf, hp, hk⟩, ⟨vx, hvx, htx⟩, c1, c2, c3, c4, c5⟩ := h
  have e1 : ensureObjProp (JVal.obj l) "fields" = some (JVal.obj l) :=
    ensureObjProp_skip hf rfl
  have e2 : ensureObjProp2 (JVal.obj l) "fields" "project" = some (JVal.obj l) :=
    ensureObjProp2_skip hf hp rfl
  have e3 : setProp3 (JVal.obj l) "fields" "project" "key" (JVal.str o.projectKey) =
      some (JVal.obj l) := by
    rw [setProp3_eval hf hp, setKey_self_of_lookup hk, setKey_self_of_lookup hp,
      setKey_self_of_lookup hf]
  have e4 : ensureObjProp (JVal.obj l) "xrayFields" = some (JVal.obj l) :=
    ensureObjProp_skip hvx htx
  have e5 := condSet_eval "testExecKey" c1
  have e6 := condSet_eval "testPlanKey" c2
  have e7 := condSet_eval "testEnvironments" c3
  have e8 := condSet_eval "revision" c4
  have e9 := condSet_eval "fixVersion" c5
  simp only [updateTestExecJson, e1, Option.some_bind, e2, e3, e4, e5, e6, e7, e8, e9]

/-- Full characterization of a successful `updateTestExecJson` run.  The
input must be an object.  In the output: the merged shape holds
(`fields.project.key` is forced to the context's project key, `xrayFields`
is truthy, and every present context field sits in `xrayFields`); every top
level key other than `fields` and `xrayFields` is untouched; inside a
pre-existing `fields` object every key other than `project` is untouched;
inside a pre-existing `project` object every key other than `key` is
untouched; and inside a pre-existing `xrayFields` object every key that is
not the target of a present context field is untouched. -/
theorem updateTestExecJson_chars {o : XrayImportOptions} {j j' : JVal}
    (h : updateTestExecJson o j = some j') :
    ∃ l l', j = JVal.obj l ∧ j' = JVal.obj l' ∧ MergedShapeL o l' ∧
      (∀ k, k ≠ "fields" → k ≠ "xrayFields" → lookupKey l' k = lookupKey l k) ∧
      (∀ lf0, lookupKey l "fields" = some (JVal.obj lf0) →
        ∃ lf', lookupKey l' "fields" = some (JVal.obj lf') ∧
          (∀ k, k ≠ "project" → lookupKey lf' k = lookupKey lf0 k) ∧
          (∀ lp0, lookupKey lf0 "project" = some (JVal.obj lp0) →
            ∃ lp', lookupKey lf' "project" = some (JVal.obj lp') ∧
              ∀ k, k ≠ "key" → lookupKey lp' k = lookupKey lp0 k)) ∧
      (∀ lx0, lookupKey l "xrayFields" = some (JVal.obj lx0) →
        ∃ lx, lookupKey l' "xrayFields" = some (JVal.obj lx) ∧
          ∀ k, (k = "testExecKey" → o.testExecKey = "") →
               (k = "testPlanKey" → o.testPlanKey = "") →
               (k = "testEnvironments" → o.testEnvironments = "") →
               (k = "revision" → o.revision = "") →
               (k = "fixVersion" → o.fixVersion = "") →
               lookupKey lx k = lookupKey lx0 k) := by
  cases j with
  | undef => simp [updateTestExecJson, ensureObjProp, getProp] at h
  | null => simp [updateTestExecJson, ensureObjProp, getProp] at h
  | bool b => simp [updateTestExecJson, ensureObjProp, getProp, setProp, jsTruthy] at h
  | num n => simp [updateTestExecJson, ensureObjProp, getProp, setProp, jsTruthy] at h
  | str s2 => simp [updateTestExecJson, ensureObjProp, getProp, setProp, jsTruthy] at h
  | obj l =>
    unfold updateTestExecJson at h
    rw [Option.bind_eq_some] at h
    obtain ⟨j1, hs1, h⟩ := h
    rw [Option.bind_eq_some] at h
    obtain ⟨j2, hs2, h⟩ := h
    rw [Option.bind_eq_some] at h
    obtain ⟨j3, hs3, h⟩ := h
    rw [Option.bind_eq_some] at h
    obtain ⟨j4, hs4, h⟩ := h
    rw [Option.bind_eq_some] at h
    obtain ⟨j5, hs5, h⟩ := h
    rw [Option.bind_eq_some] at h
    obtain ⟨j6, hs6, h⟩ := h
    rw [Option.bind_eq_some] at h
    obtain ⟨j7, hs7, h⟩ := h
    rw [Option.bind_eq_some] at h
    obtain ⟨j8, hs8, h⟩ := h
    obtain ⟨l1, rfl, hv1, hfr1, hid1⟩ := ensureObjProp_facts hs1
    obtain ⟨lf1, l2, lf2, hf1, rfl, hf2, hv2, hfr2, hff2, hid2⟩ := ensureObjProp2_facts hs2
    obtain ⟨lf2b, lp2, hf2b, hp2, rfl⟩ := setProp3_facts hs3
    have hlfeq : lf2b = lf2 := JVal.obj.inj (Option.some.inj (hf2b.symm.trans hf2))
    subst hlfeq
    set lpn := setKey lp2 "key" (JVal.str o.projectKey) with hlpndef
    set lfn := setKey lf2b "project" (JVal.obj lpn) with hlfndef
    set l3 := setKey l2 "fields" (JVal.obj lfn) with hl3def
    obtain ⟨l4, rfl, hv4, hfr4, hid4⟩ := ensureObjProp_facts hs4
    obtain ⟨l5, rfl, hc5⟩ := condSet_facts hs5
    obtain ⟨l6, rfl, hc6⟩ := condSet_facts hs6
    obtain ⟨l7, rfl, hc7⟩ := condSet_facts hs7
    obtain ⟨l8, rfl, hc8⟩ := condSet_facts hs8
    obtain ⟨l9, rfl, hc9⟩ := condSet_facts h
    have hfp3 : lookupKey l3 "fields" = some (JVal.obj lfn) := lookupKey_setKey_self _ _ _
    have hpp3 : lookupKey lfn "project" = some (JVal.obj lpn) := lookupKey_setKey_self _ _ _
    have hkk3 : lookupKey lpn "key" = some (JVal.str o.projectKey) := lookupKey_setKey_self _ _ _
    have hfr3 : ∀ k, k ≠ "fields" → lookupKey l3 k = lookupKey l2 k :=
      fun k hk => lookupKey_setKey_other l2 "fields" k _ hk
    have hff3 : ∀ k, k ≠ "project" → lookupKey lfn k = lookupKey lf2b k :=
      fun k hk => lookupKey_setKey_other lf2b "project" k _ hk
    have hpf3 : ∀ k, k ≠ "key" → lookupKey lpn k = lookupKey lp2 k :=
      fun k hk => lookupKey_setKey_other lp2 "key" k _ hk
    have hfin_f : lookupKey l9 "fields" = some (JVal.obj lfn) := by
      rw [condStep_top hc9 "fields" (by decide), condStep_top hc8 "fields" (by decide),
        condStep_top hc7 "fields" (by decide), condStep_top hc6 "fields" (by decide),
        condStep_top hc5 "fields" (by decide), hfr4 "fields" (by decide)]
      exact hfp3
    have htr9 : ∃ vx, lookupKey l9 "xrayFields" = some vx ∧ jsTruthy vx = true :=
      condStep_truthy hc9 (condStep_truthy hc8 (condStep_truthy hc7
        (condStep_truthy hc6 (condStep_truthy hc5 hv4))))
    have hcond1 : o.testExecKey = "" ∨ ∃ lx,
        lookupKey l9 "xrayFields" = some (JVal.obj lx) ∧
        lookupKey lx "testExecKey" = some (JVal.str o.testExecKey) := by
      rcases condStep_own hc5 with hs | hc
      · exact Or.inl hs
      · exact Or.inr (condStep_cond hc9 (by decide) (condStep_cond hc8 (by decide)
          (condStep_cond hc7 (by decide) (condStep_cond hc6 (by decide) hc))))
    have hcond2 : o.testPlanKey = "" ∨ ∃ lx,
        lookupKey l9 "xrayFields" = some (JVal.obj lx) ∧
        lookupKey lx "testPlanKey" = some (JVal.str o.testPlanKey) := by
      rcases condStep_own hc6 with hs | hc
      · exact Or.inl hs
      · exact Or.inr (condStep_cond hc9 (by decide) (condStep_cond hc8 (by decide)
          (condStep_cond hc7 (by decide) hc)))
    have hcond3 : o.testEnvironments = "" ∨ ∃ lx,
        lookupKey l9 "xrayFields" = some (JVal.obj lx) ∧
        lookupKey lx "testEnvironments" = some (JVal.str o.testEnvironments) := by
      rcases condStep_own hc7 with hs | hc
      · exact Or.inl hs
      · exact Or.inr (condStep_cond hc9 (by decide) (condStep_cond hc8 (by decide) hc))
    have hcond4 : o.revision = "" ∨ ∃ lx,
        lookupKey l9 "xrayFields" = some (JVal.obj lx) ∧
        lookupKey lx "revision" = some (JVal.str o.revision) := by
      rcases condStep_own hc8 with hs | hc
      · exact Or.inl hs
      · exact Or.inr (condStep_cond hc9 (by decide) hc)
    have hcond5 := condStep_own hc9
    have htop : ∀ k, k ≠ "fields" → k ≠ "xrayFields" → lookupKey l9 k = lookupKey l k := by
      intro k hkf hkx
      rw [condStep_top hc9 k hkx, condStep_top hc8 k hkx, condStep_top hc7 k hkx,
        condStep_top hc6 k hkx, condStep_top hc5 k hkx, hfr4 k hkx, hfr3 k hkf,
        hfr2 k hkf, hfr1 k hkf]
    have hfFrame : ∀ lf0, lookupKey l "fields" = some (JVal.obj lf0) →
        ∃ lf', lookupKey l9 "fields" = some (JVal.obj lf') ∧
          (∀ k, k ≠ "project" → lookupKey lf' k = lookupKey lf0 k) ∧
          (∀ lp0, lookupKey lf0 "project" = some (JVal.obj lp0) →
            ∃ lp', lookupKey lf' "project" = some (JVal.obj lp') ∧
              ∀ k, k ≠ "key" → lookupKey lp' k = lookupKey lp0 k) := by
      intro lf0 h0
      have h1id : l1 = l := hid1 _ h0 rfl
      have hf1b : lookupKey l "fields" = some (JVal.obj lf1) := by
        rw [← h1id]; exact hf1
      have hlf10 : lf1 = lf0 := JVal.obj.inj (Option.some.inj (hf1b.symm.trans h0))
      refine ⟨lfn, hfin_f, ?_, ?_⟩
      · intro k hk
        rw [hff3 k hk, hff2 k hk, hlf10]
      · intro lp0 h0p
        have h2id : l2 = l1 ∧ lf2b = lf1 :=
          hid2 (JVal.obj lp0) (by rw [hlf10]; exact h0p) rfl
        have hp2b : lookupKey lf0 "project" = some (JVal.obj lp2) := by
          rw [← hlf10, ← h2id.2]; exact hp2
        have hlp20 : lp2 = lp0 := JVal.obj.inj (Option.some.inj (hp2b.symm.trans h0p))
        refine ⟨lpn, hpp3, ?_⟩
        intro k hk
        rw [hpf3 k hk, hlp20]
    have hxFrame : ∀ lx0, lookupKey l "xrayFields" = some (JVal.obj lx0) →
        ∃ lx, lookupKey l9 "xrayFields" = some (JVal.obj lx) ∧
          ∀ k, (k = "testExecKey" → o.testExecKey = "") →
               (k = "testPlanKey" → o.testPlanKey = "") →
               (k = "testEnvironments" → o.testEnvironments = "") →
               (k = "revision" → o.revision = "") →
               (k = "fixVersion" → o.fixVersion = "") →
               lookupKey lx k = lookupKey lx0 k := by
      intro lx0 h0
      have h3x : lookupKey l3 "xrayFields" = some (JVal.obj lx0) := by
        rw [hfr3 "xrayFields" (by decide), hfr2 "xrayFields" (by decide),
          hfr1 "xrayFields" (by decide)]
        exact h0
      have h4id : l4 = l3 := hid4 _ h3x rfl
      have h4x : lookupKey l4 "xrayFields" = some (JVal.obj lx0) := by
        rw [h4id]; exact h3x
      have G4 : ∃ lx, lookupKey l4 "xrayFields" = some (JVal.obj lx) ∧
          ∀ k, True → lookupKey lx k = lookupKey lx0 k :=
        ⟨lx0, h4x, fun _ _ => rfl⟩
      have G5 := condStep_frame (fun _ => True) hc5 G4
      have G6 := condStep_frame _ hc6 G5
      have G7 := condStep_frame _ hc7 G6
      have G8 := condStep_frame _ hc8 G7
      have G9 := condStep_frame _ hc9 G8
      obtain ⟨lx, hlx, hpres⟩ := G9
      refine ⟨lx, hlx, ?_⟩
      intro k g1 g2 g3 g4 g5
      exact hpres k ⟨⟨⟨⟨⟨trivial, g1⟩, g2⟩, g3⟩, g4⟩, g5⟩
    exact ⟨l, l9, rfl, rfl,
      ⟨⟨lfn, lpn, hfin_f, hpp3, hkk3⟩, htr9, hcond1, hcond2, hcond3, hcond4, hcond5⟩,
      htop, hfFrame, hxFrame⟩

/-- Claim C5: the execution-descriptor merge is idempotent: a second run of
`updateTestExecJson` with the same options on the result of a successful
run succeeds and leaves the object state unchanged. -/
theorem updateTestExecJson_idem (o : XrayImportOptions) (j j' : JVal)
    (h : updateTestExecJson o j = some j') :
    updateTestExecJson o j' = some j' := by
  obtain ⟨l, l', _, rfl, hshape, _, _, _⟩ := updateTestExecJson_chars h
  exact updateTestExecJson_of_shape hshape

theorem updateTestExecJson_idem_witness :
    updateTestExecJson
      { testFormat := "junit", projectKey := "PRJ", testExecKey := "", testPlanKey := "TP-1",
        testEnvironments := "", revision := "", fixVersion := "1.0", testExecutionJson := none }
      (JVal.obj [("fields", JVal.obj [("project", JVal.obj [("key", JVal.str "PRJ")])]),
        ("xrayFields", JVal.obj [("testPlanKey", JVal.str "TP-1"),
          ("fixVersion", JVal.str "1.0")])]) =
      some (JVal.obj [("fields", JVal.obj [("project", JVal.obj [("key", JVal.str "PRJ")])]),
        ("xrayFields", JVal.obj [("testPlanKey", JVal.str "TP-1"),
          ("fixVersion", JVal.str "1.0")])]) :=
  updateTestExecJson_idem _ (JVal.obj []) _ rfl

/-- Claim C6, counterexample: on the JSON descriptor whose `fields` member
is the number 5 — truthy but not an object — the merge throws a TypeError
(strict-mode assignment to a property of a primitive) instead of ensuring
that `fields` and `fields.project` are objects and force-setting the
project key, so the claim fails as stated for this caller-supplied
descriptor. -/
theorem updateTestExecJson_fields_num :
    updateTestExecJson
      { testFormat := "junit", projectKey := "PRJ", testExecKey := "", testPlanKey := "",
        testEnvironments := "", revision := "", fixVersion := "", testExecutionJson := none }
      (JVal.obj [("fields", JVal.num 5)]) = none := rfl

/-- Claim C6 (amended): whenever the merge completes without throwing — in
particular whenever any pre-existing truthy `fields` or `fields.project`
value is an object — the resulting descriptor has `fields` and
`fields.project` as objects (created when absent or falsy) and
`fields.project.key` force-set to the context's project key, overwriting
any caller-supplied value. -/
theorem updateTestExecJson_forcesProjectKey (o : XrayImportOptions) (j j' : JVal)
    (h : updateTestExecJson o j = some j') :
    ∃ l' lf lp, j' = JVal.obj l' ∧
      lookupKey l' "fields" = some (JVal.obj lf) ∧
      lookupKey lf "project" = some (JVal.obj lp) ∧
      lookupKey lp "key" = some (JVal.str o.projectKey) := by
  obtain ⟨l, l', _, rfl, hshape, _, _, _⟩ := updateTestExecJson_chars h
  obtain ⟨⟨lf, lp, hf, hp, hk⟩, _⟩ := hshape
  exact ⟨l', lf, lp, rfl, hf, hp, hk⟩

theorem updateTestExecJson_forcesProjectKey_witness :
    ∃ l' lf lp,
      JVal.obj [("fields", JVal.obj [("project", JVal.obj [("key", JVal.str "PRJ")])]),
        ("xrayFields", JVal.obj [])] = JVal.obj l' ∧
      lookupKey l' "fields" = some (JVal.obj lf) ∧
      lookupKey lf "project" = some (JVal.obj lp) ∧
      lookupKey lp "key" = some (JVal.str "PRJ") :=
  updateTestExecJson_forcesProjectKey
    { testFormat := "junit", projectKey := "PRJ", testExecKey := "", testPlanKey := "",
      testEnvironments := "", revision := "", fixVersion := "", testExecutionJson := none }
    (JVal.obj [("fields", JVal.obj [("project", JVal.obj [("key", JVal.str "OTHER")])])])
    (JVal.obj [("fields", JVal.obj [("project", JVal.obj [("key", JVal.str "PRJ")])]),
      ("xrayFields", JVal.obj [])])
    rfl

/-- Claim C9: the merge modifies only `fields.project.key` and the
`xrayFields` entries whose context field is present.  Every other key is
left unchanged: top-level keys other than `fields` and `xrayFields`; keys
other than `project` of a pre-existing `fields` object; keys other than
`key` of a pre-existing `project` object; and every entry of a
pre-existing `xrayFields` object whose key is not being copied now — in
particular stale caller-supplied entries for absent context fields are
retained, not deleted. -/
theorem updateTestExecJson_frame (o : XrayImportOptions) (j j' : JVal)
    (h : updateTestExecJson o j = some j') :
    ∃ l l', j = JVal.obj l ∧ j' = JVal.obj l' ∧
      (∀ k, k ≠ "fields" → k ≠ "xrayFields" → lookupKey l' k = lookupKey l k) ∧
      (∀ lf0, lookupKey l "fields" = some (JVal.obj lf0) →
        ∃ lf', lookupKey l' "fields" = some (JVal.obj lf') ∧
          (∀ k, k ≠ "project" → lookupKey lf' k = lookupKey lf0 k) ∧
          (∀ lp0, lookupKey lf0 "project" = some (JVal.obj lp0) →
            ∃ lp', lookupKey lf' "project" = some (JVal.obj lp') ∧
              ∀ k, k ≠ "key" → lookupKey lp' k = lookupKey lp0 k)) ∧
      (∀ lx0, lookupKey l "xrayFields" = some (JVal.obj lx0) →
        ∃ lx, lookupKey l' "xrayFields" = some (JVal.obj lx) ∧
          ∀ k, (k = "testExecKey" → o.testExecKey = "") →
               (k = "testPlanKey" → o.testPlanKey = "") →
               (k = "testEnvironments" → o.testEnvironments = "") →
               (k = "revision" → o.revision = "") →
               (k = "fixVersion" → o.fixVersion = "") →
               lookupKey lx k = lookupKey lx0 k) := by
  obtain ⟨l, l', hj, hj', _, htop, hff, hxf⟩ := updateTestExecJson_chars h
  exact ⟨l, l', hj, hj', htop, hff, hxf⟩

theorem updateTestExecJson_frame_witness :
    ∃ l l',
      JVal.obj [("summary", JVal.str "S"),
        ("fields", JVal.obj [("labels", JVal.str "L"),
          ("project", JVal.obj [("key", JVal.str "OLD"), ("name", JVal.str "N")])]),
        ("xrayFields", JVal.obj [("fixVersion", JVal.str "7.7"),
          ("testEnvironments", JVal.str "stale")])] = JVal.obj l ∧
      JVal.obj [("summary", JVal.str "S"),
        ("fields", JVal.obj [("labels", JVal.str "L"),
          ("project", JVal.obj [("key", JVal.str "PRJ"), ("name", JVal.str "N")])]),
        ("xrayFields", JVal.obj [("fixVersion", JVal.str "7.7"),
          ("testEnvironments", JVal.str "stale"),
          ("testPlanKey", JVal.str "TP-1")])] = JVal.obj l' ∧
      (∀ k, k ≠ "fields" → k ≠ "xrayFields" → lookupKey l' k = lookupKey l k) ∧
      (∀ lf0, lookupKey l "fields" = some (JVal.obj lf0) →
        ∃ lf', lookupKey l' "fields" = some (JVal.obj lf') ∧
          (∀ k, k ≠ "project" → lookupKey lf' k = lookupKey lf0 k) ∧
          (∀ lp0, lookupKey lf0 "project" = some (JVal.obj lp0) →
            ∃ lp', lookupKey lf' "project" = some (JVal.obj lp') ∧
              ∀ k, k ≠ "key" → lookupKey lp' k = lookupKey lp0 k)) ∧
      (∀ lx0, lookupKey l "xrayFields" = some (JVal.obj lx0) →
        ∃ lx, lookupKey l' "xrayFields" = some (JVal.obj lx) ∧
          ∀ k, (k = "testExecKey" → ("" : String) = "") →
               (k = "testPlanKey" → ("TP-1" : String) = "") →
               (k = "testEnvironments" → ("" : String) = "") →
               (k = "revision" → ("" : String) = "") →
               (k = "fixVersion" → ("" : String) = "") →
               lookupKey lx k = lookupKey lx0 k) :=
  updateTestExecJson_frame
    { testFormat := "junit", projectKey := "PRJ", testExecKey := "", testPlanKey := "TP-1",
      testEnvironments := "", revision := "", fixVersion := "", testExecutionJson := none }
    (JVal.obj [("summary", JVal.str "S"),
      ("fields", JVal.obj [("labels", JVal.str "L"),
        ("project", JVal.obj [("key", JVal.str "OLD"), ("name", JVal.str "N")])]),
      ("xrayFields", JVal.obj [("fixVersion", JVal.str "7.7"),
        ("testEnvironments", JVal.str "stale")])])
    (JVal.obj [("summary", JVal.str "S"),
      ("fields", JVal.obj [("labels", JVal.str "L"),
        ("project", JVal.obj [("key", JVal.str "PRJ"), ("name", JVal.str "N")])]),
      ("xrayFields", JVal.obj [("fixVersion", JVal.str "7.7"),
        ("testEnvironments", JVal.str "stale"),
        ("testPlanKey", JVal.str "TP-1")])])
    rfl
